import Mathlib

/-!
Verification development for the `projectcal` schedule dashboard
(`src/app.py`).  The file embeds the date normalizer `parse_date`
(app.py lines 38-101), the column resolver `find_column` (lines 103-107),
the start-date derivation (line 131) and the D-day annotation
(lines 149-151) as executable Lean definitions, and proves or refutes
the specification claims about them.

Modelling conventions:
* A pandas `Timestamp` is its int64 nanosecond value since the epoch
  (1970-01-01), an `Int` here.  A value is representable exactly when it
  lies in `[-(2^63-1), 2^63-1]` nanoseconds (`pd.Timestamp.min/max`).
* `pd.NaT` is `none`, a missing/NaN input cell is the `none` case of
  `Option String`.
* A Python exception escaping `parse_date` is `Except.error`; all the
  parse errors that occur inside `parse_date` (format mismatch,
  `DateParseError`, `OutOfBoundsDatetime`) are `ValueError` subclasses
  in pandas, so the `except ValueError` handlers of app.py catch every
  `PErr` value.
* `pd.to_datetime(s, format=f)` follows CPython's `_strptime` semantics,
  which pandas' `array_strptime` ports: each directive is a regex
  alternation tried in order with backtracking, literal whitespace in the
  format matches one or more whitespace characters, and the whole string
  must be consumed.  `%I` without `%p` is treated as AM, so a parsed
  hour 12 becomes 0.
* Python floor division (`timedelta.days`, `Timestamp.hour`) is modelled
  with Lean's `/` and `%` on `Int`, which are Euclidean division and
  remainder; for the positive literal divisors used here (nanoseconds per
  day/hour, 24) Euclidean and floor division coincide.
* Python's `str.strip`/`\s`/`\d` also accept some non-ASCII whitespace
  and digits; the model restricts to the ASCII classes, which covers
  every string the claims quantify over.
-/

deriving instance DecidableEq for Except

namespace ProjectCal

/-- Error kinds raised by the modelled pandas calls.  All of them are
`ValueError` subclasses in pandas, hence caught by every
`except ValueError` in app.py. -/
inductive PErr where
  | nomatch : PErr
  | invalid : PErr
  | oob : PErr
deriving DecidableEq

/-- ASCII whitespace, the characters Python's `str.strip` and `\s`
treat as space that can occur in the data. -/
def isSpacePy (c : Char) : Bool :=
  c = ' ' || c = '\t' || c = '\n' || c = '\r' || c = '\x0b' || c = '\x0c'

/-- Numeric value of a digit character. -/
def dv (c : Char) : Nat := c.toNat - 48

/-- The decimal digit character for `n % 10`. -/
def dchar (n : Nat) : Char :=
  match n % 10 with
  | 0 => '0' | 1 => '1' | 2 => '2' | 3 => '3' | 4 => '4'
  | 5 => '5' | 6 => '6' | 7 => '7' | 8 => '8' | _ => '9'

/-- Zero-padded two-digit decimal rendering (`%02d`). -/
def pad2 (n : Nat) : List Char := [dchar (n / 10), dchar n]

/-- Zero-padded four-digit decimal rendering (`%04d`). -/
def pad4 (n : Nat) : List Char := [dchar (n / 1000), dchar (n / 100), dchar (n / 10), dchar n]

/-- `str.lstrip()`. -/
def stripLeft (l : List Char) : List Char := l.dropWhile isSpacePy

/-- `str.rstrip()`. -/
def stripRight : List Char → List Char
  | [] => []
  | c :: rest =>
    let r := stripRight rest
    if r.isEmpty then (if isSpacePy c then [] else [c]) else c :: r

/-- `str.strip()` — drop leading and trailing whitespace. -/
def stripList (l : List Char) : List Char := stripRight (stripLeft l)

/-- Whether the two-character sequence `a, b` occurs in the list:
Python's `'xy' in s` substring test for a two-character needle
(used for the markers `이전`, `행사`). -/
def contains2 (a b : Char) : List Char → Bool
  | c :: d :: rest => (c = a && d = b) || contains2 a b (d :: rest)
  | _ => false

/-- `re.search(r'(오전|오후)', s)`: leftmost meridiem marker;
`some false` is `오전` (AM), `some true` is `오후` (PM). -/
def findMarker : List Char → Option Bool
  | a :: b :: rest =>
    if a = '오' ∧ b = '전' then some false
    else if a = '오' ∧ b = '후' then some true
    else findMarker (b :: rest)
  | _ => none

/-- `s.replace('오' + snd, '')`: remove every (non-overlapping,
left-to-right) occurrence of the two-character marker. -/
def removeMarker (snd : Char) : List Char → List Char
  | a :: b :: rest =>
    if a = '오' ∧ b = snd then removeMarker snd rest
    else a :: removeMarker snd (b :: rest)
  | l => l

/-- Try `\d{4}-\d{2}-\d{2}` anchored at the head of the list,
returning the numeric fields (regex groups are digit runs). -/
def matchIso : List Char → Option (Nat × Nat × Nat)
  | a :: b :: c :: d :: s1 :: e :: f :: s2 :: g :: h :: _ =>
    if a.isDigit ∧ b.isDigit ∧ c.isDigit ∧ d.isDigit ∧ s1 = '-' ∧
       e.isDigit ∧ f.isDigit ∧ s2 = '-' ∧ g.isDigit ∧ h.isDigit then
      some (dv a * 1000 + dv b * 100 + dv c * 10 + dv d, dv e * 10 + dv f, dv g * 10 + dv h)
    else none
  | _ => none

/-- `re.search(r'\d{4}-\d{2}-\d{2}', s)`: first position where the
pattern matches. -/
def searchIso : List Char → Option (Nat × Nat × Nat)
  | [] => none
  | c :: rest =>
    match matchIso (c :: rest) with
    | some r => some r
    | none => searchIso rest

/-- Try `\d{4}\.\d{2}\.\d{2}` anchored at the head of the list. -/
def matchDot : List Char → Option (Nat × Nat × Nat)
  | a :: b :: c :: d :: s1 :: e :: f :: s2 :: g :: h :: _ =>
    if a.isDigit ∧ b.isDigit ∧ c.isDigit ∧ d.isDigit ∧ s1 = '.' ∧
       e.isDigit ∧ f.isDigit ∧ s2 = '.' ∧ g.isDigit ∧ h.isDigit then
      some (dv a * 1000 + dv b * 100 + dv c * 10 + dv d, dv e * 10 + dv f, dv g * 10 + dv h)
    else none
  | _ => none

/-- `re.search(r'\d{4}\.\d{2}\.\d{2}', s)`. -/
def searchDot : List Char → Option (Nat × Nat × Nat)
  | [] => none
  | c :: rest =>
    match matchDot (c :: rest) with
    | some r => some r
    | none => searchDot rest

/-- `re.match(r'^\d{4}$', s)` on an already-stripped string: the whole
string is exactly four digits. -/
def isYear4 : List Char → Bool
  | [a, b, c, d] => a.isDigit && b.isDigit && c.isDigit && d.isDigit
  | _ => false

/-- `re.match(r'^\d{4}\.\d{2}$', s)`. -/
def isYearMonth : List Char → Bool
  | [a, b, c, d, e, f, g] =>
    a.isDigit && b.isDigit && c.isDigit && d.isDigit && e = '.' && f.isDigit && g.isDigit
  | _ => false

/-! ### Calendar arithmetic

`toDayNumber` is the standard civil-calendar day count (days since
0000-03-01 of the proleptic Gregorian calendar), the arithmetic that
underlies `datetime`/`Timestamp` values.  All years handled by the
format directives are four-digit, so `Nat` arithmetic suffices. -/

/-- Gregorian leap year. -/
def isLeap (y : Nat) : Prop := y % 4 = 0 ∧ (y % 100 ≠ 0 ∨ y % 400 = 0)

instance (y : Nat) : Decidable (isLeap y) := by unfold isLeap; infer_instance

/-- Length of month `m` of year `y` (`calendar.monthrange` semantics). -/
def daysInMonth (y m : Nat) : Nat :=
  if m = 2 then (if isLeap y then 29 else 28)
  else if m = 4 ∨ m = 6 ∨ m = 9 ∨ m = 11 then 30
  else 31

/-- A valid civil date. -/
def validDate (y m d : Nat) : Prop := 1 ≤ m ∧ m ≤ 12 ∧ 1 ≤ d ∧ d ≤ daysInMonth y m

instance (y m d : Nat) : Decidable (validDate y m d) := by unfold validDate; infer_instance

/-- Day-of-year offset of the first of month `m`, counted from March 1
(the shifted year used by civil-calendar day counting). -/
def doyOf (m : Nat) : Nat := (153 * (if 2 < m then m - 3 else m + 9) + 2) / 5

/-- Days contributed by whole (shifted) years before `y'`. -/
def daysBeforeYear (y' : Nat) : Nat := 365 * y' + y' / 4 + y' / 400 - y' / 100

/-- Civil day number of `y-m-d`: days since 0000-03-01. -/
def toDayNumber (y m d : Nat) : Nat :=
  daysBeforeYear (if m ≤ 2 then y - 1 else y) + doyOf m + (d - 1)

/-- Day number of the epoch 1970-01-01. -/
def epochDay : Nat := 719468

def nsPerDay : Int := 86400000000000
def nsPerHour : Int := 3600000000000

/-- Nanosecond value of the timestamp `y-m-d h:mi:s`. -/
def mkNs (y m d h mi s : Nat) : Int :=
  ((toDayNumber y m d : Int) - (epochDay : Int)) * nsPerDay
    + ((h * 3600 + mi * 60 + s : Nat) : Int) * 1000000000

/-- The int64 range of pandas nanosecond timestamps
(`pd.Timestamp.min.value = -(2^63-1)`, `pd.Timestamp.max.value = 2^63-1`). -/
def inBounds (ns : Int) : Prop :=
  -9223372036854775807 ≤ ns ∧ ns ≤ 9223372036854775807

instance (ns : Int) : Decidable (inBounds ns) := by unfold inBounds; infer_instance

/-- Construct a pandas timestamp from civil fields: validates the day
against the month length and the nanosecond range, like
`datetime`/`Timestamp` construction inside `to_datetime`. -/
def toTs (y m d h mi s : Nat) : Except PErr Int :=
  if 1 ≤ m ∧ m ≤ 12 then
    if 1 ≤ d ∧ d ≤ daysInMonth y m then
      if inBounds (mkNs y m d h mi s) then .ok (mkNs y m d h mi s)
      else .error .oob
    else .error .invalid
  else .error .invalid

/-- `Timestamp - Timedelta` / `Timestamp + Timedelta` with the overflow
check pandas performs (an out-of-range result raises). -/
def subNs (a b : Int) : Except PErr Int :=
  if inBounds (a - b) then .ok (a - b) else .error .oob

def addNs (a b : Int) : Except PErr Int :=
  if inBounds (a + b) then .ok (a + b) else .error .oob

/-- `Timestamp.hour`: Python floor division and modulus; both divisors
are positive so Lean's Euclidean `/`/`%` agree with Python. -/
def hourOf (ns : Int) : Int := (ns / nsPerHour) % 24

/-! ### strptime: format directives as ordered regex alternatives

CPython's `_strptime` (ported by pandas) compiles each directive to a
regex; matching is anchored, greedy, backtracking, and must consume the
whole string.  `matchTok` returns the list of possible
(value, remaining input) pairs in the order the regex alternation tries
them; `runToks` is the backtracking sequencing. -/

inductive FTok where
  | lit : Char → FTok
  | ws : FTok
  | yr : FTok
  | mon : FTok
  | dayTok : FTok
  | hr24 : FTok
  | hr12 : FTok
  | minTok : FTok
  | secTok : FTok
  | ampmTok : FTok
deriving DecidableEq

/-- Intermediate parse state: `_strptime`'s defaults are year 1900,
month 1, day 1, time 00:00:00. -/
structure Raw where
  y : Nat
  mo : Nat
  d : Nat
  h : Nat
  mi : Nat
  s : Nat
  hasI : Bool
  ampm : Option Bool
deriving DecidableEq

def raw0 : Raw := ⟨1900, 1, 1, 0, 0, 0, false, none⟩

def setTok : FTok → Nat → Raw → Raw
  | .yr, v, r => ⟨v, r.mo, r.d, r.h, r.mi, r.s, r.hasI, r.ampm⟩
  | .mon, v, r => ⟨r.y, v, r.d, r.h, r.mi, r.s, r.hasI, r.ampm⟩
  | .dayTok, v, r => ⟨r.y, r.mo, v, r.h, r.mi, r.s, r.hasI, r.ampm⟩
  | .hr24, v, r => ⟨r.y, r.mo, r.d, v, r.mi, r.s, r.hasI, r.ampm⟩
  | .hr12, v, r => ⟨r.y, r.mo, r.d, v, r.mi, r.s, true, r.ampm⟩
  | .minTok, v, r => ⟨r.y, r.mo, r.d, r.h, v, r.s, r.hasI, r.ampm⟩
  | .secTok, v, r => ⟨r.y, r.mo, r.d, r.h, r.mi, v, r.hasI, r.ampm⟩
  | .ampmTok, v, r => ⟨r.y, r.mo, r.d, r.h, r.mi, r.s, r.hasI, some (v = 1)⟩
  | .lit _, _, r => r
  | .ws, _, r => r

def isDig19 (c : Char) : Bool := '1' ≤ c && c ≤ '9'

/-- `\s+`: the greedy alternatives, longest first, each consuming at
least one whitespace character. -/
def wsAlts : List Char → List (Nat × List Char)
  | c :: rest => if isSpacePy c then wsAlts rest ++ [(0, rest)] else []
  | [] => []

/-- `%Y`: regex `\d\d\d\d`. -/
def matchY : List Char → List (Nat × List Char)
  | a :: b :: c :: d :: rest =>
    if a.isDigit && b.isDigit && c.isDigit && d.isDigit then
      [(dv a * 1000 + dv b * 100 + dv c * 10 + dv d, rest)]
    else []
  | _ => []

/-- `%m` and `%I`: regex `1[0-2]|0[1-9]|[1-9]`, alternatives in order. -/
def match12 : List Char → List (Nat × List Char)
  | a :: b :: rest =>
    (if a = '1' && ('0' ≤ b && b ≤ '2') then [(10 + dv b, rest)] else []) ++
    (if a = '0' && isDig19 b then [(dv b, rest)] else []) ++
    (if isDig19 a then [(dv a, b :: rest)] else [])
  | [a] => if isDig19 a then [(dv a, [])] else []
  | [] => []

/-- `%d`: regex `3[01]|[12]\d|0[1-9]|[1-9]`. -/
def matchDay : List Char → List (Nat × List Char)
  | a :: b :: rest =>
    (if a = '3' && ('0' ≤ b && b ≤ '1') then [(30 + dv b, rest)] else []) ++
    (if (a = '1' || a = '2') && b.isDigit then [(dv a * 10 + dv b, rest)] else []) ++
    (if a = '0' && isDig19 b then [(dv b, rest)] else []) ++
    (if isDig19 a then [(dv a, b :: rest)] else [])
  | [a] => if isDig19 a then [(dv a, [])] else []
  | [] => []

/-- `%H`: regex `2[0-3]|[0-1]\d|\d`. -/
def matchH : List Char → List (Nat × List Char)
  | a :: b :: rest =>
    (if a = '2' && ('0' ≤ b && b ≤ '3') then [(20 + dv b, rest)] else []) ++
    (if (a = '0' || a = '1') && b.isDigit then [(dv a * 10 + dv b, rest)] else []) ++
    (if a.isDigit then [(dv a, b :: rest)] else [])
  | [a] => if a.isDigit then [(dv a, [])] else []
  | [] => []

/-- `%M` and `%S`: regex `[0-5]\d|\d`. -/
def match59 : List Char → List (Nat × List Char)
  | a :: b :: rest =>
    (if ('0' ≤ a && a ≤ '5') && b.isDigit then [(dv a * 10 + dv b, rest)] else []) ++
    (if a.isDigit then [(dv a, b :: rest)] else [])
  | [a] => if a.isDigit then [(dv a, [])] else []
  | [] => []

/-- `%p`: case-insensitive `AM|PM` (C locale); value 1 means PM. -/
def matchP : List Char → List (Nat × List Char)
  | a :: b :: rest =>
    (if (a = 'a' || a = 'A') && (b = 'm' || b = 'M') then [(0, rest)] else []) ++
    (if (a = 'p' || a = 'P') && (b = 'm' || b = 'M') then [(1, rest)] else [])
  | _ => []

def matchLit (c : Char) : List Char → List (Nat × List Char)
  | a :: rest => if a = c then [(0, rest)] else []
  | [] => []

def matchTok : FTok → List Char → List (Nat × List Char)
  | .lit c, l => matchLit c l
  | .ws, l => wsAlts l
  | .yr, l => matchY l
  | .mon, l => match12 l
  | .dayTok, l => matchDay l
  | .hr24, l => matchH l
  | .hr12, l => match12 l
  | .minTok, l => match59 l
  | .secTok, l => match59 l
  | .ampmTok, l => matchP l

def firstSome {α β : Type} (f : α → Option β) : List α → Option β
  | [] => none
  | a :: as =>
    match f a with
    | some b => some b
    | none => firstSome f as

/-- Backtracking sequencing of the directive regexes; the whole input
must be consumed (`exact=True` in pandas). -/
def runToks : List FTok → List Char → Raw → Option Raw
  | [], l, r => if l.isEmpty then some r else none
  | t :: ts, l, r => firstSome (fun p => runToks ts p.2 (setTok t p.1 r)) (matchTok t l)

/-- Post-match interpretation of the raw fields: `_strptime` treats `%I`
without `%p` as AM (a parsed hour 12 becomes 0); with `%p`, PM adds 12
except at 12, AM maps 12 to 0. -/
def rawHour (r : Raw) : Nat :=
  if r.hasI then
    match r.ampm with
    | some true => if r.h ≠ 12 then r.h + 12 else 12
    | _ => if r.h = 12 then 0 else r.h
  else r.h

/-- `pd.to_datetime(s, format=fmt)`. -/
def strptimeTs (fmt : List FTok) (l : List Char) : Except PErr Int :=
  match runToks fmt l raw0 with
  | none => .error .nomatch
  | some r => toTs r.y r.mo r.d (rawHour r) r.mi r.s

/-! ### The format strings of app.py -/

def fmtRule5 : List FTok := [.yr, .lit '.', .mon, .lit '.', .dayTok, .ws, .hr12, .lit ':', .minTok]
def fmtY : List FTok := [.yr]
def fmtYM : List FTok := [.yr, .lit '.', .mon]

/-- The `date_formats` battery of app.py lines 81-93, in order
(including the duplicated `'%Y.%m.%d %H:%M'`). -/
def dateFormats : List (List FTok) :=
  [ [.yr, .lit '-', .mon, .lit '-', .dayTok],
    [.yr, .lit '.', .mon, .lit '.', .dayTok],
    [.yr, .lit '-', .mon, .lit '-', .dayTok, .ws, .hr24, .lit ':', .minTok],
    [.yr, .lit '.', .mon, .lit '.', .dayTok, .ws, .hr24, .lit ':', .minTok],
    [.yr, .lit '-', .mon, .lit '-', .dayTok, .ws, .ampmTok, .ws, .hr12, .lit ':', .minTok],
    [.yr, .lit '.', .mon, .lit '.', .dayTok, .ws, .ampmTok, .ws, .hr12, .lit ':', .minTok],
    [.yr, .lit '-', .mon, .lit '-', .dayTok, .ws, .hr24, .lit ':', .minTok, .lit ':', .secTok],
    [.yr, .lit '.', .mon, .lit '.', .dayTok, .ws, .hr24, .lit ':', .minTok, .lit ':', .secTok],
    [.yr, .lit '.', .ws, .mon, .lit '.', .ws, .dayTok, .lit '.', .ws, .hr24, .lit ':', .minTok],
    [.yr, .lit '.', .mon, .lit '.', .dayTok, .ws, .hr24, .lit ':', .minTok],
    [.yr, .lit '.', .mon, .lit '.', .dayTok, .lit '.', .hr24] ]

/-! ### parse_date (app.py lines 38-101) -/

/-- The sentinel status strings of line 45. -/
def sentinel1 : List Char := "사전규격".data
def sentinel2 : List Char := "견적서 요청".data
def sentinel3 : List Char := "실행중".data

def sentinelHit (l : List Char) : Prop := l = sentinel1 ∨ l = sentinel2 ∨ l = sentinel3

instance (l : List Char) : Decidable (sentinelHit l) := by unfold sentinelHit; infer_instance

/-- Rule 3 (`'이전' in date_str`, lines 48-51): `some r` means the rule
returns (with `r` the outcome of the unguarded
`pd.to_datetime(...) - timedelta(days=1)`), `none` means fall through. -/
def rule3 (l : List Char) : Option (Except PErr Int) :=
  if contains2 '이' '전' l then
    match searchIso l with
    | some (y, m, d) =>
      some (match toTs y m d 0 0 0 with
            | .ok ns => subNs ns nsPerDay
            | .error e => .error e)
    | none => none
  else none

/-- Rule 4 (`'행사' in date_str`, lines 53-56): dots of the matched group
are replaced by dashes and the result parsed as a plain date. -/
def rule4 (l : List Char) : Option (Except PErr Int) :=
  if contains2 '행' '사' l then
    match searchDot l with
    | some (y, m, d) => some (toTs y m d 0 0 0)
    | none => none
  else none

/-- The body of rule 5's `try` block (lines 62-71): 12-hour parse then
meridiem correction.  `pm = false` is `오전`, `pm = true` is `오후`. -/
def tryRule5 (pm : Bool) (l : List Char) : Except PErr Int :=
  match strptimeTs fmtRule5 l with
  | .error e => .error e
  | .ok ns =>
    if pm then (if hourOf ns ≠ 12 then addNs ns (12 * nsPerHour) else .ok ns)
    else (if hourOf ns = 12 then subNs ns (12 * nsPerHour) else .ok ns)

/-- Rules 6-9 (lines 75-101): bare year, year-month, the format battery,
and the final `return pd.NaT`.  Errors in rules 6 and 7 are uncaught
(`.error`); the battery catches every `ValueError`. -/
def batteryGo : List (List FTok) → List Char → Except PErr (Option Int)
  | [], _ => .ok none
  | f :: fs, l =>
    match strptimeTs f l with
    | .ok ns => .ok (some ns)
    | .error _ => batteryGo fs l

def afterRules (l : List Char) : Except PErr (Option Int) :=
  if isYear4 l then
    match strptimeTs fmtY l with
    | .ok ns => .ok (some ns)
    | .error e => .error e
  else if isYearMonth l then
    match strptimeTs fmtYM l with
    | .ok ns => .ok (some ns)
    | .error e => .error e
  else batteryGo dateFormats l

/-- Rule 5 with its fall-through (lines 58-73): when a meridiem marker is
present the marker is removed and the string re-stripped, and from then
on the *later rules see the stripped string* because line 61 reassigns
`date_str`. -/
def rule5Stage (l : List Char) : Except PErr (Option Int) :=
  match findMarker l with
  | none => afterRules l
  | some pm =>
    let l' := stripList (removeMarker (if pm then '후' else '전') l)
    match tryRule5 pm l' with
    | .ok ns => .ok (some ns)
    | .error _ => afterRules l'

/-- `parse_date` on a non-missing cell (everything after the
`pd.isna` test). -/
def parseStr (l0 : List Char) : Except PErr (Option Int) :=
  let l := stripList l0
  if sentinelHit l then .ok none
  else
    match rule3 l with
    | some r => Except.map some r
    | none =>
      match rule4 l with
      | some r => Except.map some r
      | none => rule5Stage l

/-- `parse_date` (app.py lines 38-101).  `none` input is a missing/NaN
cell; `.ok none` is `pd.NaT`; `.error` is an exception escaping the
function. -/
def parse_date (x : Option String) : Except PErr (Option Int) :=
  match x with
  | none => .ok none
  | some s => parseStr s.data

/-! ### find_column (lines 103-107) -/

/-- `pat` is a prefix of `l`. -/
def startsWithL : List Char → List Char → Bool
  | [], _ => true
  | _ :: _, [] => false
  | p :: ps, c :: cs => p = c && startsWithL ps cs

/-- Python's substring test `pat in l`. -/
def containsL (pat : List Char) : List Char → Bool
  | [] => startsWithL pat []
  | c :: cs => startsWithL pat (c :: cs) || containsL pat cs

/-- Case-insensitive containment of `keyword` in a column name:
`keyword.lower() in str(col).lower()`. -/
def kwIn (keyword col : String) : Bool :=
  containsL (keyword.data.map Char.toLower) (col.data.map Char.toLower)

def colMatches (keywords : List String) (col : String) : Bool :=
  keywords.any (fun k => kwIn k col)

/-- `find_column`: first column, in order, whose name contains one of the
keywords case-insensitively; `none` when there is no match. -/
def find_column (cols : List String) (keywords : List String) : Option String :=
  cols.find? (colMatches keywords)

/-! ### Start-date derivation and D-day annotation (lines 131, 149-151) -/

/-- Line 131: `df['시작일'] = df[end_date_col] - timedelta(days=14)`. -/
def startOf (endNs : Int) : Int := endNs - 14 * nsPerDay

/-- Line 150: `(end - datetime.now()).days` — `timedelta.days` is the
floor of the difference in days; the divisor is positive so Euclidean
`/` is floor division. -/
def d_day (endNs nowNs : Int) : Int := (endNs - nowNs) / nsPerDay

/-- Line 151: `f"D-{d_day}" if d_day >= 0 else f"D+{-d_day}"`. -/
def d_day_text (endNs nowNs : Int) : String :=
  if 0 ≤ d_day endNs nowNs then "D-" ++ toString (d_day endNs nowNs)
  else "D+" ++ toString (-(d_day endNs nowNs))

/-! ### Spec-side definitions

These two follow the specification's words, not the code; they are
compared against the code-derived definitions in the theorems. -/

/-- Modelled from the spec: "D minus one calendar day", the calendar
predecessor of a civil date (borrowing across month and year
boundaries). -/
def civilPred (y m d : Nat) : Nat × Nat × Nat :=
  if 2 ≤ d then (y, m, d - 1)
  else if 2 ≤ m then (y, m - 1, daysInMonth y (m - 1))
  else (y - 1, 12, 31)

/-- The civil day number of a date triple. -/
def dayNumOf (p : Nat × Nat × Nat) : Nat := toDayNumber p.1 p.2.1 p.2.2

/-! ### Canonical renderings used by the universally quantified claims -/

/-- A date in canonical `YYYY-MM-DD` form. -/
def isoStr (y m d : Nat) : List Char := pad4 y ++ '-' :: pad2 m ++ '-' :: pad2 d

/-- A date in `YYYY.MM.DD` form. -/
def dotStr (y m d : Nat) : List Char := pad4 y ++ '.' :: pad2 m ++ '.' :: pad2 d

/-- A meridiem-qualified cell `YYYY.MM.DD 오전/오후 hh:mi`
(`pm = true` is `오후`). -/
def meridStr (pm : Bool) (y m d hh mi : Nat) : List Char :=
  dotStr y m d ++ ' ' :: '오' :: (if pm then '후' else '전') :: ' ' :: pad2 hh ++ ':' :: pad2 mi

/-- `meridStr` after the marker removal and re-strip of rule 5 (note the
two adjacent spaces where the marker stood). -/
def noMarkStr (y m d hh mi : Nat) : List Char :=
  dotStr y m d ++ ' ' :: ' ' :: pad2 hh ++ ':' :: pad2 mi

/-! ## Helper lemmas: digit characters -/

lemma dchar_cases (n : Nat) :
    dchar n = '0' ∨ dchar n = '1' ∨ dchar n = '2' ∨ dchar n = '3' ∨ dchar n = '4' ∨
    dchar n = '5' ∨ dchar n = '6' ∨ dchar n = '7' ∨ dchar n = '8' ∨ dchar n = '9' := by
  have h : n % 10 < 10 := Nat.mod_lt _ (by norm_num)
  unfold dchar
  generalize hr : n % 10 = r at h ⊢
  interval_cases r <;> simp

lemma dchar_isDigit (n : Nat) : (dchar n).isDigit = true := by
  rcases dchar_cases n with h|h|h|h|h|h|h|h|h|h <;> rw [h] <;> decide

lemma dv_dchar (n : Nat) : dv (dchar n) = n % 10 := by
  have h : n % 10 < 10 := Nat.mod_lt _ (by norm_num)
  unfold dchar dv
  generalize hr : n % 10 = r at h ⊢
  interval_cases r <;> decide

lemma ne_of_digit {c : Char} (k : Char) (h : c.isDigit = true) (hk : k.isDigit = false) :
    c ≠ k := by
  intro e; rw [e, hk] at h; cases h

lemma dchar_ne (n : Nat) (k : Char) (hk : k.isDigit = false) : dchar n ≠ k :=
  ne_of_digit k (dchar_isDigit n) hk

lemma dchar_not_space (n : Nat) : isSpacePy (dchar n) = false := by
  rcases dchar_cases n with h|h|h|h|h|h|h|h|h|h <;> rw [h] <;> decide

/-! ## Helper lemmas: stripping -/

lemma stripRight_single {c : Char} (h : isSpacePy c = false) : stripRight [c] = [c] := by
  simp [stripRight, h]

lemma stripRight_cons (a : Char) (l : List Char) (h : stripRight l ≠ []) :
    stripRight (a :: l) = a :: stripRight l := by
  cases hr : stripRight l with
  | nil => exact absurd hr h
  | cons b t => simp [stripRight, hr]

lemma stripRight_last (l : List Char) {c : Char} (h : isSpacePy c = false) :
    stripRight (l ++ [c]) = l ++ [c] := by
  induction l with
  | nil => simpa using stripRight_single h
  | cons a t ih =>
    have hne : stripRight (t ++ [c]) ≠ [] := by rw [ih]; simp
    rw [List.cons_append, stripRight_cons _ _ hne, ih]

lemma stripList_eq_self (l : List Char) {a c : Char} (ha : isSpacePy a = false)
    (hc : isSpacePy c = false) (hshape : l = a :: (l.drop 1)) (hlast : l = l.dropLast ++ [c]) :
    stripList l = l := by
  rw [stripList, hshape, stripLeft, List.dropWhile_cons, ha]
  simp only [Bool.false_eq_true, if_false]
  rw [← hshape, hlast, stripRight_last _ hc, ← hlast]

/-! ## Helper lemmas: marker scanning -/

lemma contains2_of_not_head {a : Char} (b : Char) (l : List Char) (h : ∀ c ∈ l, c ≠ a) :
    contains2 a b l = false := by
  induction l with
  | nil => rfl
  | cons c t ih =>
    cases t with
    | nil => rfl
    | cons d t' =>
      have hc : c ≠ a := h c (by simp)
      have : contains2 a b (d :: t') = false := ih (fun x hx => h x (by simp [hx]))
      simp [contains2, hc, this]

lemma findMarker_of_no_oh (l : List Char) (h : ∀ c ∈ l, c ≠ '오') :
    findMarker l = none := by
  induction l with
  | nil => rfl
  | cons c t ih =>
    cases t with
    | nil => rfl
    | cons d t' =>
      have hc : c ≠ '오' := h c (by simp)
      have : findMarker (d :: t') = none := ih (fun x hx => h x (by simp [hx]))
      simp [findMarker, hc, this]

lemma findMarker_skip {a : Char} (b : Char) (rest : List Char) (h : a ≠ '오') :
    findMarker (a :: b :: rest) = findMarker (b :: rest) := by
  simp [findMarker, h]

lemma removeMarker_of_no_oh (snd : Char) (l : List Char) (h : ∀ c ∈ l, c ≠ '오') :
    removeMarker snd l = l := by
  induction l with
  | nil => rfl
  | cons c t ih =>
    cases t with
    | nil => rfl
    | cons d t' =>
      have hc : c ≠ '오' := h c (by simp)
      have : removeMarker snd (d :: t') = d :: t' := ih (fun x hx => h x (by simp [hx]))
      simp [removeMarker, hc, this]

lemma removeMarker_skip {a : Char} (snd : Char) (b : Char) (rest : List Char) (h : a ≠ '오') :
    removeMarker snd (a :: b :: rest) = a :: removeMarker snd (b :: rest) := by
  simp [removeMarker, h]

/-! ## Helper lemmas: the strptime machinery -/

lemma runToks_head (t : FTok) (ts : List FTok) (l tail : List Char) (v : Nat)
    (rest : List (Nat × List Char)) (r out : Raw)
    (hm : matchTok t l = (v, tail) :: rest)
    (h : runToks ts tail (setTok t v r) = some out) :
    runToks (t :: ts) l r = some out := by
  simp [runToks, hm, firstSome, h]

lemma matchY_pads (y : Nat) (tail : List Char) (h : y < 10000) :
    matchTok .yr (dchar (y / 1000) :: dchar (y / 100) :: dchar (y / 10) :: dchar y :: tail)
      = [(y, tail)] := by
  simp [matchTok, matchY, dchar_isDigit, dv_dchar]
  omega

lemma match12_pads (v : Nat) (tail : List Char) (h1 : 1 ≤ v) (h2 : v ≤ 12) :
    ∃ rest, match12 (dchar (v / 10) :: dchar v :: tail) = (v, tail) :: rest := by
  interval_cases v <;> exact ⟨_, rfl⟩

lemma matchMon_pads (v : Nat) (tail : List Char) (h1 : 1 ≤ v) (h2 : v ≤ 12) :
    ∃ rest, matchTok .mon (dchar (v / 10) :: dchar v :: tail) = (v, tail) :: rest :=
  match12_pads v tail h1 h2

lemma matchI_pads (v : Nat) (tail : List Char) (h1 : 1 ≤ v) (h2 : v ≤ 12) :
    ∃ rest, matchTok .hr12 (dchar (v / 10) :: dchar v :: tail) = (v, tail) :: rest :=
  match12_pads v tail h1 h2

lemma matchDay_pads (v : Nat) (tail : List Char) (h1 : 1 ≤ v) (h2 : v ≤ 31) :
    ∃ rest, matchTok .dayTok (dchar (v / 10) :: dchar v :: tail) = (v, tail) :: rest := by
  show ∃ rest, matchDay (dchar (v / 10) :: dchar v :: tail) = (v, tail) :: rest
  interval_cases v <;> exact ⟨_, rfl⟩

lemma matchMin_pads (v : Nat) (tail : List Char) (h : v ≤ 59) :
    ∃ rest, matchTok .minTok (dchar (v / 10) :: dchar v :: tail) = (v, tail) :: rest := by
  show ∃ rest, match59 (dchar (v / 10) :: dchar v :: tail) = (v, tail) :: rest
  interval_cases v <;> exact ⟨_, rfl⟩

lemma matchLit_self (c : Char) (tail : List Char) :
    matchTok (.lit c) (c :: tail) = [(0, tail)] := by
  simp [matchTok, matchLit]

lemma matchWs_two (c : Char) (rest : List Char) (h : isSpacePy c = false) :
    matchTok .ws (' ' :: ' ' :: c :: rest) = (0, c :: rest) :: [(0, ' ' :: c :: rest)] := by
  have hs : isSpacePy ' ' = true := by decide
  simp [matchTok, wsAlts, hs, h]

lemma matchWs_one (c : Char) (rest : List Char) (h : isSpacePy c = false) :
    matchTok .ws (' ' :: c :: rest) = [(0, c :: rest)] := by
  have hs : isSpacePy ' ' = true := by decide
  simp [matchTok, wsAlts, hs, h]

/-! ## Helper lemmas: calendar arithmetic -/

lemma daysInMonth_le (y m : Nat) : daysInMonth y m ≤ 31 := by
  unfold daysInMonth
  split_ifs <;> omega

lemma doyOf_le (m : Nat) (h1 : 1 ≤ m) (h2 : m ≤ 12) : doyOf m ≤ 337 := by
  interval_cases m <;> decide

lemma doyOf_ge_of_le_two (m : Nat) (h1 : 1 ≤ m) (h2 : m ≤ 2) : 306 ≤ doyOf m := by
  interval_cases m <;> decide

lemma daysBeforeYear_bounds (y' : Nat) (h1 : 1677 ≤ y') (h2 : y' ≤ 2261) :
    365 * y' + 401 ≤ daysBeforeYear y' ∧ daysBeforeYear y' ≤ 365 * y' + 554 := by
  have a1 : 419 ≤ y' / 4 := by
    calc 419 = 1677 / 4 := by norm_num
    _ ≤ y' / 4 := Nat.div_le_div_right h1
  have a2 : y' / 4 ≤ 565 := by
    calc y' / 4 ≤ 2261 / 4 := Nat.div_le_div_right h2
    _ = 565 := by norm_num
  have b1 : 16 ≤ y' / 100 := by
    calc 16 = 1677 / 100 := by norm_num
    _ ≤ y' / 100 := Nat.div_le_div_right h1
  have b2 : y' / 100 ≤ 22 := by
    calc y' / 100 ≤ 2261 / 100 := Nat.div_le_div_right h2
    _ = 22 := by norm_num
  have c1 : 4 ≤ y' / 400 := by
    calc 4 = 1677 / 400 := by norm_num
    _ ≤ y' / 400 := Nat.div_le_div_right h1
  have c2 : y' / 400 ≤ 5 := by
    calc y' / 400 ≤ 2261 / 400 := Nat.div_le_div_right h2
    _ = 5 := by norm_num
  unfold daysBeforeYear
  omega

lemma toDayNumber_bounds (y m d : Nat) (hy1 : 1678 ≤ y) (hy2 : y ≤ 2261)
    (hm1 : 1 ≤ m) (hm2 : m ≤ 12) (hd : d ≤ 31) :
    612808 ≤ toDayNumber y m d ∧ toDayNumber y m d ≤ 826202 := by
  have hdoy := doyOf_le m hm1 hm2
  unfold toDayNumber
  by_cases hm : m ≤ 2
  · have hdoy2 := doyOf_ge_of_le_two m hm1 hm
    have hb := daysBeforeYear_bounds (y - 1) (by omega) (by omega)
    simp only [hm, if_true]
    omega
  · have hb := daysBeforeYear_bounds y (by omega) (by omega)
    simp only [hm, if_false]
    omega

/-- The key calendar fact behind the before-marker claim: subtracting one
day from the day number lands exactly on the civil predecessor. -/
lemma toDayNumber_pred (y m d : Nat) (hy : 1 ≤ y) (h : validDate y m d) :
    dayNumOf (civilPred y m d) + 1 = toDayNumber y m d := by
  obtain ⟨hm1, hm2, hd1, hd2⟩ := h
  by_cases hd : 2 ≤ d
  · simp only [civilPred, hd, if_true, dayNumOf, toDayNumber]
    omega
  · have hd' : d = 1 := by omega
    subst hd'
    obtain ⟨k, rfl⟩ : ∃ k, y = k + 1 := ⟨y - 1, by omega⟩
    have hdim := daysInMonth_le (k + 1) 2
    interval_cases m
    · -- January 1 → December 31 of the previous year
      simp only [civilPred, dayNumOf, toDayNumber, doyOf]
      norm_num
    · -- February 1 → January 31
      simp only [civilPred, dayNumOf, toDayNumber, doyOf, daysInMonth]
      norm_num
    · -- March 1 → the last day of February: the leap-year case
      simp only [civilPred, dayNumOf, toDayNumber, doyOf, daysBeforeYear, daysInMonth, isLeap]
      norm_num
      rw [Nat.succ_div k 4, Nat.succ_div k 400, Nat.succ_div k 100]
      split_ifs <;> omega
    all_goals
      simp only [civilPred, dayNumOf, toDayNumber, doyOf, daysInMonth]
      norm_num

/-! ## Helper lemmas: timestamp construction -/

lemma inBounds_mkNs_near (y m d h mi s : Nat) (off : Int) (hy1 : 1678 ≤ y) (hy2 : y ≤ 2261)
    (hm1 : 1 ≤ m) (hm2 : m ≤ 12) (hd : d ≤ 31) (hh : h ≤ 23) (hmi : mi ≤ 59) (hs : s ≤ 59)
    (ho1 : -86400000000000 ≤ off) (ho2 : off ≤ 86400000000000) :
    inBounds (mkNs y m d h mi s + off) := by
  have hb := toDayNumber_bounds y m d hy1 hy2 hm1 hm2 hd
  unfold inBounds mkNs nsPerDay epochDay
  constructor <;> omega

lemma inBounds_mkNs (y m d h mi s : Nat) (hy1 : 1678 ≤ y) (hy2 : y ≤ 2261)
    (hm1 : 1 ≤ m) (hm2 : m ≤ 12) (hd : d ≤ 31) (hh : h ≤ 23) (hmi : mi ≤ 59) (hs : s ≤ 59) :
    inBounds (mkNs y m d h mi s) := by
  have := inBounds_mkNs_near y m d h mi s 0 hy1 hy2 hm1 hm2 hd hh hmi hs
    (by norm_num) (by norm_num)
  simpa using this

lemma toTs_ok (y m d h mi s : Nat) (hy1 : 1678 ≤ y) (hy2 : y ≤ 2261)
    (hv : validDate y m d) (hh : h ≤ 23) (hmi : mi ≤ 59) (hs : s ≤ 59) :
    toTs y m d h mi s = .ok (mkNs y m d h mi s) := by
  obtain ⟨hm1, hm2, hd1, hd2⟩ := hv
  have hd31 : d ≤ 31 := le_trans hd2 (daysInMonth_le y m)
  unfold toTs
  rw [if_pos ⟨hm1, hm2⟩, if_pos ⟨hd1, hd2⟩,
    if_pos (inBounds_mkNs y m d h mi s hy1 hy2 hm1 hm2 hd31 hh hmi hs)]

lemma hourOf_mkNs (y m d h mi s : Nat) (hh : h ≤ 23) (hmi : mi ≤ 59) (hs : s ≤ 59) :
    hourOf (mkNs y m d h mi s) = h := by
  unfold hourOf mkNs nsPerHour nsPerDay epochDay
  omega

lemma mkNs_add_12h (y m d h mi s : Nat) :
    mkNs y m d h mi s + 12 * nsPerHour = mkNs y m d (h + 12) mi s := by
  unfold mkNs nsPerHour nsPerDay
  push_cast
  ring

/-! ## Helper lemmas: scanning over marker-free prefixes -/

lemma findMarker_append (pre rest : List Char) (h : ∀ c ∈ pre, c ≠ '오') :
    findMarker (pre ++ rest) = findMarker rest := by
  induction pre with
  | nil => rfl
  | cons a t ih =>
    have ha : a ≠ '오' := h a (by simp)
    have ih' := ih (fun x hx => h x (by simp [hx]))
    cases htr : t ++ rest with
    | nil =>
      obtain ⟨ht, hr⟩ := List.append_eq_nil.mp htr
      subst ht; subst hr; rfl
    | cons b u =>
      rw [List.cons_append, htr, findMarker_skip b u ha, ← htr, ih']

lemma removeMarker_append (snd : Char) (pre rest : List Char) (h : ∀ c ∈ pre, c ≠ '오') :
    removeMarker snd (pre ++ rest) = pre ++ removeMarker snd rest := by
  induction pre with
  | nil => rfl
  | cons a t ih =>
    have ha : a ≠ '오' := h a (by simp)
    have ih' := ih (fun x hx => h x (by simp [hx]))
    cases htr : t ++ rest with
    | nil =>
      obtain ⟨ht, hr⟩ := List.append_eq_nil.mp htr
      subst ht; subst hr; rfl
    | cons b u =>
      rw [List.cons_append, htr, removeMarker_skip snd b u ha, ← htr, ih']
      rfl

lemma searchIso_skip (c : Char) (rest : List Char) (h : matchIso (c :: rest) = none) :
    searchIso (c :: rest) = searchIso rest := by
  simp [searchIso, h]

lemma matchIso_pads (y m d : Nat) (tail : List Char) (hy : y < 10000) (hm : m < 100)
    (hd : d < 100) :
    matchIso (dchar (y / 1000) :: dchar (y / 100) :: dchar (y / 10) :: dchar y :: '-' ::
      dchar (m / 10) :: dchar m :: '-' :: dchar (d / 10) :: dchar d :: tail)
      = some (y, m, d) := by
  simp [matchIso, dchar_isDigit, dv_dchar]
  omega

/-! ## Helper lemmas: the concrete string shapes of the claims -/

lemma isoStr_eq (y m d : Nat) :
    isoStr y m d = dchar (y / 1000) :: dchar (y / 100) :: dchar (y / 10) :: dchar y :: '-' ::
      dchar (m / 10) :: dchar m :: '-' :: dchar (d / 10) :: dchar d :: [] := rfl

lemma meridStr_eq (pm : Bool) (y m d hh mi : Nat) :
    meridStr pm y m d hh mi = dchar (y / 1000) :: dchar (y / 100) :: dchar (y / 10) :: dchar y ::
      '.' :: dchar (m / 10) :: dchar m :: '.' :: dchar (d / 10) :: dchar d ::
      ' ' :: '오' :: (if pm then '후' else '전') :: ' ' ::
      dchar (hh / 10) :: dchar hh :: ':' :: dchar (mi / 10) :: dchar mi :: [] := rfl

lemma noMarkStr_eq (y m d hh mi : Nat) :
    noMarkStr y m d hh mi = dchar (y / 1000) :: dchar (y / 100) :: dchar (y / 10) :: dchar y ::
      '.' :: dchar (m / 10) :: dchar m :: '.' :: dchar (d / 10) :: dchar d ::
      ' ' :: ' ' :: dchar (hh / 10) :: dchar hh :: ':' :: dchar (mi / 10) :: dchar mi :: [] := rfl

/-- Every character of `isoStr` is a digit or a dash. -/
lemma iso_no (y m d : Nat) (K : Char) (hK : K.isDigit = false) (h1 : K ≠ '-') :
    ∀ c ∈ isoStr y m d, c ≠ K := by
  rw [isoStr_eq]
  intro c hc
  simp only [List.mem_cons, List.not_mem_nil, or_false] at hc
  rcases hc with rfl|rfl|rfl|rfl|rfl|rfl|rfl|rfl|rfl|rfl <;>
    first
    | exact dchar_ne _ _ hK
    | exact Ne.symm h1

/-- Every character of `meridStr` is a digit, a dot, a space, a colon, or
part of the meridiem marker. -/
lemma merid_no (pm : Bool) (y m d hh mi : Nat) (K : Char) (hK : K.isDigit = false)
    (h1 : K ≠ '.') (h2 : K ≠ ' ') (h3 : K ≠ ':') (h4 : K ≠ '오') (h5 : K ≠ '전')
    (h6 : K ≠ '후') :
    ∀ c ∈ meridStr pm y m d hh mi, c ≠ K := by
  have hite : (if pm then '후' else '전') ≠ K := by
    cases pm
    · simpa using Ne.symm h5
    · simpa using Ne.symm h6
  rw [meridStr_eq]
  intro c hc
  simp only [List.mem_cons, List.not_mem_nil, or_false] at hc
  rcases hc with rfl|rfl|rfl|rfl|rfl|rfl|rfl|rfl|rfl|rfl|rfl|rfl|rfl|rfl|rfl|rfl|rfl|rfl|rfl <;>
    first
    | exact dchar_ne _ _ hK
    | exact Ne.symm h1
    | exact Ne.symm h2
    | exact Ne.symm h3
    | exact Ne.symm h4
    | exact hite

lemma noMark_no (y m d hh mi : Nat) (K : Char) (hK : K.isDigit = false)
    (h1 : K ≠ '.') (h2 : K ≠ ' ') (h3 : K ≠ ':') :
    ∀ c ∈ noMarkStr y m d hh mi, c ≠ K := by
  rw [noMarkStr_eq]
  intro c hc
  simp only [List.mem_cons, List.not_mem_nil, or_false] at hc
  rcases hc with rfl|rfl|rfl|rfl|rfl|rfl|rfl|rfl|rfl|rfl|rfl|rfl|rfl|rfl|rfl|rfl|rfl <;>
    first
    | exact dchar_ne _ _ hK
    | exact Ne.symm h1
    | exact Ne.symm h2
    | exact Ne.symm h3

lemma sentinel1_eq : sentinel1 = ['사', '전', '규', '격'] := rfl

lemma sentinel2_eq : sentinel2 = ['견', '적', '서', ' ', '요', '청'] := rfl

lemma sentinel3_eq : sentinel3 = ['실', '행', '중'] := rfl

/-! ## Helper lemmas: evaluating the format battery on the claim shapes -/

lemma runToks_fmtDash (y m d : Nat) (hy : y < 10000) (hm1 : 1 ≤ m) (hm2 : m ≤ 12)
    (hd1 : 1 ≤ d) (hd2 : d ≤ 31) :
    runToks [FTok.yr, .lit '-', .mon, .lit '-', .dayTok]
      (dchar (y / 1000) :: dchar (y / 100) :: dchar (y / 10) :: dchar y :: '-' ::
        dchar (m / 10) :: dchar m :: '-' :: dchar (d / 10) :: dchar d :: []) raw0
      = some ⟨y, m, d, 0, 0, 0, false, none⟩ := by
  obtain ⟨rm, hrm⟩ := matchMon_pads m ('-' :: dchar (d / 10) :: dchar d :: []) hm1 hm2
  obtain ⟨rd, hrd⟩ := matchDay_pads d [] hd1 hd2
  refine runToks_head _ _ _ _ _ _ _ _ (matchY_pads y _ hy) ?_
  refine runToks_head _ _ _ _ _ _ _ _ (matchLit_self '-' _) ?_
  refine runToks_head _ _ _ _ _ _ _ _ hrm ?_
  refine runToks_head _ _ _ _ _ _ _ _ (matchLit_self '-' _) ?_
  refine runToks_head _ _ _ _ _ _ _ _ hrd ?_
  rfl

lemma runToks_fmtRule5 (y m d hh mi : Nat) (hy : y < 10000) (hm1 : 1 ≤ m) (hm2 : m ≤ 12)
    (hd1 : 1 ≤ d) (hd2 : d ≤ 31) (hh1 : 1 ≤ hh) (hh2 : hh ≤ 12) (hmi : mi ≤ 59) :
    runToks fmtRule5
      (dchar (y / 1000) :: dchar (y / 100) :: dchar (y / 10) :: dchar y :: '.' ::
        dchar (m / 10) :: dchar m :: '.' :: dchar (d / 10) :: dchar d ::
        ' ' :: ' ' :: dchar (hh / 10) :: dchar hh :: ':' :: dchar (mi / 10) :: dchar mi :: []) raw0
      = some ⟨y, m, d, hh, mi, 0, true, none⟩ := by
  obtain ⟨rm, hrm⟩ := matchMon_pads m
    ('.' :: dchar (d / 10) :: dchar d :: ' ' :: ' ' :: dchar (hh / 10) :: dchar hh :: ':' ::
      dchar (mi / 10) :: dchar mi :: []) hm1 hm2
  obtain ⟨rd, hrd⟩ := matchDay_pads d
    (' ' :: ' ' :: dchar (hh / 10) :: dchar hh :: ':' :: dchar (mi / 10) :: dchar mi :: []) hd1 hd2
  obtain ⟨rh, hrh⟩ := matchI_pads hh (':' :: dchar (mi / 10) :: dchar mi :: []) hh1 hh2
  obtain ⟨rmi, hrmi⟩ := matchMin_pads mi [] hmi
  refine runToks_head _ _ _ _ _ _ _ _ (matchY_pads y _ hy) ?_
  refine runToks_head _ _ _ _ _ _ _ _ (matchLit_self '.' _) ?_
  refine runToks_head _ _ _ _ _ _ _ _ hrm ?_
  refine runToks_head _ _ _ _ _ _ _ _ (matchLit_self '.' _) ?_
  refine runToks_head _ _ _ _ _ _ _ _ hrd ?_
  refine runToks_head _ _ _ _ _ _ _ _ (matchWs_two _ _ (dchar_not_space (hh / 10))) ?_
  refine runToks_head _ _ _ _ _ _ _ _ hrh ?_
  refine runToks_head _ _ _ _ _ _ _ _ (matchLit_self ':' _) ?_
  refine runToks_head _ _ _ _ _ _ _ _ hrmi ?_
  rfl

lemma strptime_dash (y m d : Nat) (hy1 : 1678 ≤ y) (hy2 : y ≤ 2261) (hv : validDate y m d) :
    strptimeTs [FTok.yr, .lit '-', .mon, .lit '-', .dayTok] (isoStr y m d)
      = .ok (mkNs y m d 0 0 0) := by
  obtain ⟨hm1, hm2, hd1, hd2⟩ := hv
  have hd31 : d ≤ 31 := le_trans hd2 (daysInMonth_le y m)
  rw [isoStr_eq]
  unfold strptimeTs
  rw [runToks_fmtDash y m d (by omega) hm1 hm2 hd1 hd31]
  exact toTs_ok y m d 0 0 0 hy1 hy2 ⟨hm1, hm2, hd1, hd2⟩ (by omega) (by omega) (by omega)

lemma strptime_rule5 (y m d hh mi : Nat) (hy1 : 1678 ≤ y) (hy2 : y ≤ 2261)
    (hv : validDate y m d) (hh1 : 1 ≤ hh) (hh2 : hh ≤ 12) (hmi : mi ≤ 59) :
    strptimeTs fmtRule5 (noMarkStr y m d hh mi)
      = .ok (mkNs y m d (if hh = 12 then 0 else hh) mi 0) := by
  obtain ⟨hm1, hm2, hd1, hd2⟩ := hv
  have hd31 : d ≤ 31 := le_trans hd2 (daysInMonth_le y m)
  rw [noMarkStr_eq]
  unfold strptimeTs
  rw [runToks_fmtRule5 y m d hh mi (by omega) hm1 hm2 hd1 hd31 hh1 hh2 hmi]
  show toTs y m d (rawHour ⟨y, m, d, hh, mi, 0, true, none⟩) mi 0 = _
  have hraw : rawHour ⟨y, m, d, hh, mi, 0, true, none⟩ = if hh = 12 then 0 else hh := rfl
  rw [hraw]
  exact toTs_ok y m d _ mi 0 hy1 hy2 ⟨hm1, hm2, hd1, hd2⟩ (by split_ifs <;> omega) hmi
    (by omega)

lemma batteryGo_cons_ok (f : List FTok) (fs : List (List FTok)) (l : List Char) (ns : Int)
    (h : strptimeTs f l = .ok ns) : batteryGo (f :: fs) l = .ok (some ns) := by
  simp [batteryGo, h]

/-! ## Helper lemmas: assembling parse_date on the claim shapes -/

lemma parseStr_no_early (l0 : List Char) (hstrip : stripList l0 = l0)
    (hsent : ¬ sentinelHit l0) (h3 : rule3 l0 = none) (h4 : rule4 l0 = none) :
    parseStr l0 = rule5Stage l0 := by
  unfold parseStr
  rw [hstrip, if_neg hsent, h3, h4]

lemma rule5Stage_none (l : List Char) (hm : findMarker l = none) :
    rule5Stage l = afterRules l := by
  unfold rule5Stage
  rw [hm]

/-- Canonical `YYYY-MM-DD` strings of in-range dates resolve to the very
date, through the first entry of the format battery. -/
lemma parse_iso (y m d : Nat) (hy1 : 1678 ≤ y) (hy2 : y ≤ 2261) (hv : validDate y m d) :
    parseStr (isoStr y m d) = .ok (some (mkNs y m d 0 0 0)) := by
  obtain ⟨hm1, hm2, hd1, hd2⟩ := hv
  have hstrip : stripList (isoStr y m d) = isoStr y m d :=
    stripList_eq_self _ (dchar_not_space (y / 1000)) (dchar_not_space d) rfl rfl
  have hsent : ¬ sentinelHit (isoStr y m d) := by
    intro hs
    rcases hs with h|h|h
    · exact dchar_ne (y / 1000) '사' (by decide) (congrArg (fun l => l.headD ' ') h)
    · exact dchar_ne (y / 1000) '견' (by decide) (congrArg (fun l => l.headD ' ') h)
    · exact dchar_ne (y / 1000) '실' (by decide) (congrArg (fun l => l.headD ' ') h)
  have h3 : rule3 (isoStr y m d) = none := by
    have hc := contains2_of_not_head '전' (isoStr y m d) (iso_no y m d '이' (by decide) (by decide))
    simp [rule3, hc]
  have h4 : rule4 (isoStr y m d) = none := by
    have hc := contains2_of_not_head '사' (isoStr y m d) (iso_no y m d '행' (by decide) (by decide))
    simp [rule4, hc]
  have hfm : findMarker (isoStr y m d) = none :=
    findMarker_of_no_oh _ (iso_no y m d '오' (by decide) (by decide))
  have hy4 : isYear4 (isoStr y m d) = false := rfl
  have hym : isYearMonth (isoStr y m d) = false := rfl
  have hbat : batteryGo dateFormats (isoStr y m d) = .ok (some (mkNs y m d 0 0 0)) :=
    batteryGo_cons_ok _ _ _ _ (strptime_dash y m d hy1 hy2 ⟨hm1, hm2, hd1, hd2⟩)
  rw [parseStr_no_early _ hstrip hsent h3 h4, rule5Stage_none _ hfm]
  unfold afterRules
  rw [hy4, hym]
  simpa using hbat

/-- Translating the difference by one day to the civil predecessor. -/
lemma mkNs_pred (y m d : Nat) (hy : 1 ≤ y) (hv : validDate y m d) :
    mkNs y m d 0 0 0 - nsPerDay
      = mkNs (civilPred y m d).1 (civilPred y m d).2.1 (civilPred y m d).2.2 0 0 0 := by
  have hp := toDayNumber_pred y m d hy hv
  have hcast : (toDayNumber y m d : Int)
      = (toDayNumber (civilPred y m d).1 (civilPred y m d).2.1 (civilPred y m d).2.2 : Int) + 1 := by
    have : dayNumOf (civilPred y m d) = toDayNumber (civilPred y m d).1 (civilPred y m d).2.1
        (civilPred y m d).2.2 := rfl
    rw [this] at hp
    exact_mod_cast hp.symm
  unfold mkNs nsPerDay epochDay
  rw [hcast]
  ring

/-- The before-marker path: `"이전" ++ D` hits rule 3, which parses the
embedded date and subtracts one day. -/
lemma parse_yijeon (y m d : Nat) (hy1 : 1678 ≤ y) (hy2 : y ≤ 2261) (hv : validDate y m d) :
    parseStr ('이' :: '전' :: isoStr y m d) = .ok (some (mkNs y m d 0 0 0 - nsPerDay)) := by
  obtain ⟨hm1, hm2, hd1, hd2⟩ := hv
  have hd31 : d ≤ 31 := le_trans hd2 (daysInMonth_le y m)
  have hstrip : stripList ('이' :: '전' :: isoStr y m d) = '이' :: '전' :: isoStr y m d :=
    stripList_eq_self _ (by decide) (dchar_not_space d) rfl rfl
  have hsent : ¬ sentinelHit ('이' :: '전' :: isoStr y m d) := by
    intro hs
    rcases hs with h|h|h
    · have h' : '이' = '사' := congrArg (fun l => l.headD ' ') h
      exact absurd h' (by decide)
    · have h' : '이' = '견' := congrArg (fun l => l.headD ' ') h
      exact absurd h' (by decide)
    · have h' : '이' = '실' := congrArg (fun l => l.headD ' ') h
      exact absurd h' (by decide)
  have hcont : contains2 '이' '전' ('이' :: '전' :: isoStr y m d) = true := by
    rw [isoStr_eq]
    simp [contains2]
  have hsearch : searchIso ('이' :: '전' :: isoStr y m d) = some (y, m, d) := by
    rw [isoStr_eq]
    have h0 : matchIso ('이' :: '전' :: dchar (y / 1000) :: dchar (y / 100) :: dchar (y / 10) ::
        dchar y :: '-' :: dchar (m / 10) :: dchar m :: '-' :: dchar (d / 10) :: dchar d :: [])
        = none := rfl
    have h1 : matchIso ('전' :: dchar (y / 1000) :: dchar (y / 100) :: dchar (y / 10) ::
        dchar y :: '-' :: dchar (m / 10) :: dchar m :: '-' :: dchar (d / 10) :: dchar d :: [])
        = none := rfl
    have h2 := matchIso_pads y m d [] (by omega) (by omega) (by omega)
    simp [searchIso, h0, h1, h2]
  have hsub : subNs (mkNs y m d 0 0 0) nsPerDay = .ok (mkNs y m d 0 0 0 - nsPerDay) := by
    unfold subNs
    rw [if_pos]
    have := inBounds_mkNs_near y m d 0 0 0 (-nsPerDay) hy1 hy2 hm1 hm2 hd31 (by omega)
      (by omega) (by omega) (by unfold nsPerDay; omega) (by unfold nsPerDay; omega)
    simpa [sub_eq_add_neg] using this
  have h3 : rule3 ('이' :: '전' :: isoStr y m d) = some (.ok (mkNs y m d 0 0 0 - nsPerDay)) := by
    have htts := toTs_ok y m d 0 0 0 hy1 hy2 ⟨hm1, hm2, hd1, hd2⟩ (by omega) (by omega) (by omega)
    simp [rule3, hcont, hsearch, htts, hsub]
  unfold parseStr
  rw [hstrip, if_neg hsent, h3]
  rfl

lemma removeMarker_hit (snd : Char) (rest : List Char) :
    removeMarker snd ('오' :: snd :: rest) = removeMarker snd rest := by
  simp [removeMarker]

lemma rule5Stage_marker_ok (l : List Char) (pm : Bool) (ns : Int)
    (hm : findMarker l = some pm)
    (htry : tryRule5 pm (stripList (removeMarker (if pm then '후' else '전') l)) = .ok ns) :
    rule5Stage l = .ok (some ns) := by
  unfold rule5Stage
  rw [hm]
  simp only [htry]

/-- Rule 5 on a well-formed `오전` cell: `%I` without `%p` already maps a
parsed hour 12 to 0, so the explicit `dt.hour == 12` correction of the
`오전` branch never fires, and the result carries hour `hh % 12`. -/
lemma parse_merid_am (y m d hh mi : Nat) (hy1 : 1678 ≤ y) (hy2 : y ≤ 2261)
    (hv : validDate y m d) (hh1 : 1 ≤ hh) (hh2 : hh ≤ 12) (hmi : mi ≤ 59) :
    parseStr (meridStr false y m d hh mi)
      = .ok (some (mkNs y m d (if hh = 12 then 0 else hh) mi 0)) := by
  obtain ⟨hm1, hm2, hd1, hd2⟩ := hv
  have hstrip : stripList (meridStr false y m d hh mi) = meridStr false y m d hh mi :=
    stripList_eq_self _ (dchar_not_space (y / 1000)) (dchar_not_space mi) rfl rfl
  have hsent : ¬ sentinelHit (meridStr false y m d hh mi) := by
    intro hs
    rcases hs with h|h|h
    · exact dchar_ne (y / 1000) '사' (by decide) (congrArg (fun l => l.headD ' ') h)
    · exact dchar_ne (y / 1000) '견' (by decide) (congrArg (fun l => l.headD ' ') h)
    · exact dchar_ne (y / 1000) '실' (by decide) (congrArg (fun l => l.headD ' ') h)
  have h3 : rule3 (meridStr false y m d hh mi) = none := by
    have hc := contains2_of_not_head '전' _ (merid_no false y m d hh mi '이' (by decide)
      (by decide) (by decide) (by decide) (by decide) (by decide) (by decide))
    simp [rule3, hc]
  have h4 : rule4 (meridStr false y m d hh mi) = none := by
    have hc := contains2_of_not_head '사' _ (merid_no false y m d hh mi '행' (by decide)
      (by decide) (by decide) (by decide) (by decide) (by decide) (by decide))
    simp [rule4, hc]
  have hpre : ∀ c ∈ (dchar (y / 1000) :: dchar (y / 100) :: dchar (y / 10) :: dchar y :: '.' ::
      dchar (m / 10) :: dchar m :: '.' :: dchar (d / 10) :: dchar d :: ' ' :: []), c ≠ '오' := by
    intro c hc
    simp only [List.mem_cons, List.not_mem_nil, or_false] at hc
    rcases hc with rfl|rfl|rfl|rfl|rfl|rfl|rfl|rfl|rfl|rfl|rfl <;>
      first
      | exact dchar_ne _ _ (by decide)
      | decide
  have hrest : ∀ c ∈ (' ' :: dchar (hh / 10) :: dchar hh :: ':' :: dchar (mi / 10) ::
      dchar mi :: []), c ≠ '오' := by
    intro c hc
    simp only [List.mem_cons, List.not_mem_nil, or_false] at hc
    rcases hc with rfl|rfl|rfl|rfl|rfl|rfl <;>
      first
      | exact dchar_ne _ _ (by decide)
      | decide
  have hsplit : meridStr false y m d hh mi
      = (dchar (y / 1000) :: dchar (y / 100) :: dchar (y / 10) :: dchar y :: '.' ::
          dchar (m / 10) :: dchar m :: '.' :: dchar (d / 10) :: dchar d :: ' ' :: []) ++
        ('오' :: '전' :: ' ' :: dchar (hh / 10) :: dchar hh :: ':' :: dchar (mi / 10) ::
          dchar mi :: []) := rfl
  have hfm : findMarker (meridStr false y m d hh mi) = some false := by
    rw [hsplit, findMarker_append _ _ hpre]
    rfl
  have hrm : removeMarker '전' (meridStr false y m d hh mi) = noMarkStr y m d hh mi := by
    rw [hsplit, removeMarker_append _ _ _ hpre, removeMarker_hit,
      removeMarker_of_no_oh '전' _ hrest]
    rfl
  have hstrip2 : stripList (noMarkStr y m d hh mi) = noMarkStr y m d hh mi :=
    stripList_eq_self _ (dchar_not_space (y / 1000)) (dchar_not_space mi) rfl rfl
  have hsp := strptime_rule5 y m d hh mi hy1 hy2 ⟨hm1, hm2, hd1, hd2⟩ hh1 hh2 hmi
  have hhour : hourOf (mkNs y m d (if hh = 12 then 0 else hh) mi 0)
      = (if hh = 12 then 0 else hh : Nat) :=
    hourOf_mkNs _ _ _ _ _ _ (by split_ifs <;> omega) hmi (by omega)
  have hne12 : ((if hh = 12 then 0 else hh : Nat) : Int) ≠ 12 := by split_ifs <;> omega
  have htry : tryRule5 false (noMarkStr y m d hh mi)
      = .ok (mkNs y m d (if hh = 12 then 0 else hh) mi 0) := by
    unfold tryRule5
    rw [hsp]
    show (if hourOf (mkNs y m d (if hh = 12 then 0 else hh) mi 0) = 12 then _ else _) = _
    rw [hhour, if_neg hne12]
  rw [parseStr_no_early _ hstrip hsent h3 h4]
  refine rule5Stage_marker_ok _ false _ hfm ?_
  show tryRule5 false (stripList (removeMarker '전' (meridStr false y m d hh mi))) = _
  rw [hrm, hstrip2]
  exact htry

/-- Rule 5 on a well-formed `오후` cell: the parsed hour (12 already
mapped to 0 by the AM default of `%I`) is never 12, so the `오후` branch
always adds twelve hours — which lands exactly on standard 12-hour-clock
wraparound. -/
lemma parse_merid_pm (y m d hh mi : Nat) (hy1 : 1678 ≤ y) (hy2 : y ≤ 2261)
    (hv : validDate y m d) (hh1 : 1 ≤ hh) (hh2 : hh ≤ 12) (hmi : mi ≤ 59) :
    parseStr (meridStr true y m d hh mi)
      = .ok (some (mkNs y m d (if hh = 12 then 12 else hh + 12) mi 0)) := by
  obtain ⟨hm1, hm2, hd1, hd2⟩ := hv
  have hd31 : d ≤ 31 := le_trans hd2 (daysInMonth_le y m)
  have hstrip : stripList (meridStr true y m d hh mi) = meridStr true y m d hh mi :=
    stripList_eq_self _ (dchar_not_space (y / 1000)) (dchar_not_space mi) rfl rfl
  have hsent : ¬ sentinelHit (meridStr true y m d hh mi) := by
    intro hs
    rcases hs with h|h|h
    · exact dchar_ne (y / 1000) '사' (by decide) (congrArg (fun l => l.headD ' ') h)
    · exact dchar_ne (y / 1000) '견' (by decide) (congrArg (fun l => l.headD ' ') h)
    · exact dchar_ne (y / 1000) '실' (by decide) (congrArg (fun l => l.headD ' ') h)
  have h3 : rule3 (meridStr true y m d hh mi) = none := by
    have hc := contains2_of_not_head '전' _ (merid_no true y m d hh mi '이' (by decide)
      (by decide) (by decide) (by decide) (by decide) (by decide) (by decide))
    simp [rule3, hc]
  have h4 : rule4 (meridStr true y m d hh mi) = none := by
    have hc := contains2_of_not_head '사' _ (merid_no true y m d hh mi '행' (by decide)
      (by decide) (by decide) (by decide) (by decide) (by decide) (by decide))
    simp [rule4, hc]
  have hpre : ∀ c ∈ (dchar (y / 1000) :: dchar (y / 100) :: dchar (y / 10) :: dchar y :: '.' ::
      dchar (m / 10) :: dchar m :: '.' :: dchar (d / 10) :: dchar d :: ' ' :: []), c ≠ '오' := by
    intro c hc
    simp only [List.mem_cons, List.not_mem_nil, or_false] at hc
    rcases hc with rfl|rfl|rfl|rfl|rfl|rfl|rfl|rfl|rfl|rfl|rfl <;>
      first
      | exact dchar_ne _ _ (by decide)
      | decide
  have hrest : ∀ c ∈ (' ' :: dchar (hh / 10) :: dchar hh :: ':' :: dchar (mi / 10) ::
      dchar mi :: []), c ≠ '오' := by
    intro c hc
    simp only [List.mem_cons, List.not_mem_nil, or_false] at hc
    rcases hc with rfl|rfl|rfl|rfl|rfl|rfl <;>
      first
      | exact dchar_ne _ _ (by decide)
      | decide
  have hsplit : meridStr true y m d hh mi
      = (dchar (y / 1000) :: dchar (y / 100) :: dchar (y / 10) :: dchar y :: '.' ::
          dchar (m / 10) :: dchar m :: '.' :: dchar (d / 10) :: dchar d :: ' ' :: []) ++
        ('오' :: '후' :: ' ' :: dchar (hh / 10) :: dchar hh :: ':' :: dchar (mi / 10) ::
          dchar mi :: []) := rfl
  have hfm : findMarker (meridStr true y m d hh mi) = some true := by
    rw [hsplit, findMarker_append _ _ hpre]
    rfl
  have hrm : removeMarker '후' (meridStr true y m d hh mi) = noMarkStr y m d hh mi := by
    rw [hsplit, removeMarker_append _ _ _ hpre, removeMarker_hit,
      removeMarker_of_no_oh '후' _ hrest]
    rfl
  have hstrip2 : stripList (noMarkStr y m d hh mi) = noMarkStr y m d hh mi :=
    stripList_eq_self _ (dchar_not_space (y / 1000)) (dchar_not_space mi) rfl rfl
  have hsp := strptime_rule5 y m d hh mi hy1 hy2 ⟨hm1, hm2, hd1, hd2⟩ hh1 hh2 hmi
  have hhour : hourOf (mkNs y m d (if hh = 12 then 0 else hh) mi 0)
      = (if hh = 12 then 0 else hh : Nat) :=
    hourOf_mkNs _ _ _ _ _ _ (by split_ifs <;> omega) hmi (by omega)
  have hne12 : ((if hh = 12 then 0 else hh : Nat) : Int) ≠ 12 := by split_ifs <;> omega
  have hadd : addNs (mkNs y m d (if hh = 12 then 0 else hh) mi 0) (12 * nsPerHour)
      = .ok (mkNs y m d (if hh = 12 then 12 else hh + 12) mi 0) := by
    unfold addNs
    rw [if_pos (inBounds_mkNs_near y m d (if hh = 12 then 0 else hh) mi 0 (12 * nsPerHour)
      hy1 hy2 hm1 hm2 hd31 (by split_ifs <;> omega) hmi (by omega)
      (by unfold nsPerHour; omega) (by unfold nsPerHour; omega))]
    have he : (if hh = 12 then 0 else hh) + 12 = (if hh = 12 then 12 else hh + 12) := by
      split_ifs <;> omega
    rw [mkNs_add_12h, he]
  have htry : tryRule5 true (noMarkStr y m d hh mi)
      = .ok (mkNs y m d (if hh = 12 then 12 else hh + 12) mi 0) := by
    unfold tryRule5
    rw [hsp]
    show (if hourOf (mkNs y m d (if hh = 12 then 0 else hh) mi 0) ≠ 12 then _ else _) = _
    rw [hhour, if_pos hne12]
    exact hadd
  rw [parseStr_no_early _ hstrip hsent h3 h4]
  refine rule5Stage_marker_ok _ true _ hfm ?_
  show tryRule5 true (stripList (removeMarker '후' (meridStr true y m d hh mi))) = _
  rw [hrm, hstrip2]
  exact htry

/-! ## Helper lemmas: the rule-5 fall-through -/

lemma parseStr_no_early' (l0 : List Char) (hsent : ¬ sentinelHit (stripList l0))
    (h3 : rule3 (stripList l0) = none) (h4 : rule4 (stripList l0) = none) :
    parseStr l0 = rule5Stage (stripList l0) := by
  unfold parseStr
  rw [if_neg hsent, h3, h4]

lemma tryRule5_err (pm : Bool) (l : List Char) (e : PErr)
    (h : strptimeTs fmtRule5 l = .error e) : tryRule5 pm l = .error e := by
  unfold tryRule5
  rw [h]

lemma rule5Stage_marker_err (l : List Char) (pm : Bool) (e : PErr)
    (hm : findMarker l = some pm)
    (htry : tryRule5 pm (stripList (removeMarker (if pm then '후' else '전') l)) = .error e) :
    rule5Stage l = afterRules (stripList (removeMarker (if pm then '후' else '전') l)) := by
  unfold rule5Stage
  rw [hm]
  simp only [htry]

/-! ## Claim theorems -/

/-- Claim C1 (code bug): the totality contract is violated.  The input
cell `"9999"` passes the `^\d{4}$` gate of rule 6, and the unguarded
`pd.to_datetime('9999', format='%Y')` on line 76 raises
`OutOfBoundsDatetime` (9999 exceeds the pandas timestamp range), which
escapes `parse_date` — modelled here by the `.error` outcome. -/
theorem c1_bareYear_raises : parse_date (some "9999") = .error .oob := by decide

/-- Claim C2, counterexample to the claim as stated: `9999.03.15` is a
valid calendar date, but rule 5's parse of the stripped string raises
`OutOfBoundsDatetime`, which the `except ValueError` catches, so the
input falls through all later rules and yields `NaT` — not a timestamp
with hour 00. -/
theorem c2_counterexample : parse_date (some "9999.03.15 오전 12:30") = .ok none := by
  decide

/-- Claim C2 (amended to years 1678-2261, within the pandas timestamp
range): meridiem correction follows standard 12-hour-clock wraparound —
`오전 12:mm` resolves to hour 00, `오후 12:mm` keeps hour 12, and
`오후 hh:mm` for `hh` in 01..11 yields hour `hh + 12`; including the
three concrete examples of the specification. -/
theorem c2_meridiem_correction (y m d mi hh : Nat) (hy1 : 1678 ≤ y) (hy2 : y ≤ 2261)
    (hv : validDate y m d) (hmi : mi ≤ 59) :
    parse_date (some (String.mk (meridStr false y m d 12 mi)))
        = .ok (some (mkNs y m d 0 mi 0))
    ∧ parse_date (some (String.mk (meridStr true y m d 12 mi)))
        = .ok (some (mkNs y m d 12 mi 0))
    ∧ (1 ≤ hh → hh ≤ 11 →
        parse_date (some (String.mk (meridStr true y m d hh mi)))
          = .ok (some (mkNs y m d (hh + 12) mi 0)))
    ∧ parse_date (some "2024.03.15 오전 12:30") = .ok (some (mkNs 2024 3 15 0 30 0))
    ∧ parse_date (some "2024.03.15 오후 12:30") = .ok (some (mkNs 2024 3 15 12 30 0))
    ∧ parse_date (some "2024.03.15 오후 01:30") = .ok (some (mkNs 2024 3 15 13 30 0)) := by
  refine ⟨?_, ?_, ?_, by decide, by decide, by decide⟩
  · show parseStr (meridStr false y m d 12 mi) = _
    have h := parse_merid_am y m d 12 mi hy1 hy2 hv (by omega) (by omega) hmi
    simpa using h
  · show parseStr (meridStr true y m d 12 mi) = _
    have h := parse_merid_pm y m d 12 mi hy1 hy2 hv (by omega) (by omega) hmi
    simpa using h
  · intro hh1 hh2
    show parseStr (meridStr true y m d hh mi) = _
    have h := parse_merid_pm y m d hh mi hy1 hy2 hv hh1 (by omega) hmi
    have he : (if hh = 12 then 12 else hh + 12) = hh + 12 := by
      rw [if_neg (by omega)]
    rw [he] at h
    exact h

/-- Claim C2 witness: the amended theorem applied at 2024-03-15, minute
30, afternoon hour 01. -/
theorem c2_meridiem_correction_witness :
    parse_date (some (String.mk (meridStr true 2024 3 15 1 30)))
      = .ok (some (mkNs 2024 3 15 13 30 0)) :=
  (c2_meridiem_correction 2024 3 15 30 1 (by norm_num) (by norm_num) (by decide)
    (by norm_num)).2.2.1 (by norm_num) (by norm_num)

/-- Claim C3, counterexample to the claim as stated: `1500-01-01` is a
valid calendar date, but `pd.to_datetime('1500-01-01')` on line 51 is
outside the pandas timestamp range and raises, so `resolve` does not
return 1499-12-31 — the exception escapes `parse_date`. -/
theorem c3_counterexample : parse_date (some "이전1500-01-01") = .error .oob := by decide

/-- Claim C3 (amended to years 1678-2261, within the pandas timestamp
range): for every valid date D in canonical form, `resolve("이전" ++ D)`
is exactly the civil predecessor of D — one calendar day earlier, with
borrowing across month and year boundaries. -/
theorem c3_before_marker (y m d : Nat) (hy1 : 1678 ≤ y) (hy2 : y ≤ 2261)
    (hv : validDate y m d) :
    parse_date (some (String.mk ('이' :: '전' :: isoStr y m d)))
      = .ok (some (mkNs (civilPred y m d).1 (civilPred y m d).2.1 (civilPred y m d).2.2
          0 0 0)) := by
  show parseStr ('이' :: '전' :: isoStr y m d) = _
  rw [parse_yijeon y m d hy1 hy2 hv, mkNs_pred y m d (by omega) hv]

/-- Claim C3 witness: the day before March 1 of the leap year 2024 is
February 29. -/
theorem c3_before_marker_witness :
    parse_date (some (String.mk ('이' :: '전' :: isoStr 2024 3 1)))
      = .ok (some (mkNs 2024 2 29 0 0 0)) :=
  c3_before_marker 2024 3 1 (by norm_num) (by norm_num) (by decide)

/-- Claim C4, counterexample to the claim as stated: the input contains
the sentinel `실행중` as a literal substring, yet it is not returned as
`Unresolved` — the before-marker rule coerces it into the date
2024-03-14.  Sentinel matching in line 45 is exact equality of the
stripped string, not substring matching. -/
theorem c4_counterexample :
    containsL sentinel3 "실행중 이전 2024-03-15".data = true
    ∧ parse_date (some "실행중 이전 2024-03-15") = .ok (some (mkNs 2024 3 14 0 0 0)) :=
  ⟨by decide, by decide⟩

/-- Claim C4 (amended): sentinel keywords match by exact equality of the
whitespace-stripped cell; every input whose stripped form equals one of
the three sentinels resolves to `Unresolved`, with priority over every
later rule. -/
theorem c4_exact_sentinel (s : String) (h : sentinelHit (stripList s.data)) :
    parse_date (some s) = .ok none := by
  show parseStr s.data = _
  unfold parseStr
  rw [if_pos h]

/-- Claim C4 witness: the whitespace-padded sentinel `견적서 요청`. -/
theorem c4_exact_sentinel_witness : parse_date (some " 견적서 요청 ") = .ok none :=
  c4_exact_sentinel " 견적서 요청 " (by decide)

/-- Claim C5: when a meridiem marker is present but the stripped
remainder does not parse under `%Y.%m.%d %I:%M`, `parse_date` does not
stop — the result is exactly what rules 6-9 (`afterRules`) produce, so
such inputs can still resolve later. -/
theorem c5_rule5_fallthrough (l : List Char) (pm : Bool) (e : PErr)
    (hsent : ¬ sentinelHit (stripList l)) (h3 : rule3 (stripList l) = none)
    (h4 : rule4 (stripList l) = none) (hm : findMarker (stripList l) = some pm)
    (hfail : strptimeTs fmtRule5
      (stripList (removeMarker (if pm then '후' else '전') (stripList l))) = .error e) :
    parse_date (some (String.mk l))
      = afterRules (stripList (removeMarker (if pm then '후' else '전') (stripList l))) := by
  show parseStr l = _
  rw [parseStr_no_early' l hsent h3 h4]
  exact rule5Stage_marker_err _ _ _ hm (tryRule5_err _ _ _ hfail)

/-- Claim C5 witness: `"2024 오전"` fails rule 5's parse yet resolves to
2024-01-01 through the bare-year rule. -/
theorem c5_rule5_fallthrough_witness :
    parse_date (some "2024 오전")
      = afterRules (stripList (removeMarker (if false then '후' else '전')
          (stripList "2024 오전".data)))
    ∧ parse_date (some "2024 오전") = .ok (some (mkNs 2024 1 1 0 0 0)) :=
  ⟨c5_rule5_fallthrough "2024 오전".data false .nomatch (by decide) (by decide) (by decide)
      (by decide) (by decide),
    by decide⟩

/-- Claim C6: for every row surviving filtering (a parse that returned a
timestamp), the derived start date is exactly the end date minus 14 days
and is strictly earlier; in particular end date `2024.03.01` yields
start date 2024-02-16. -/
theorem c6_start_derivation :
    (∀ (s : Option String) (e : Int), parse_date s = .ok (some e) →
      startOf e = e - 14 * nsPerDay ∧ startOf e < e)
    ∧ parse_date (some "2024.03.01") = .ok (some (mkNs 2024 3 1 0 0 0))
    ∧ startOf (mkNs 2024 3 1 0 0 0) = mkNs 2024 2 16 0 0 0 := by
  refine ⟨fun s e _ => ⟨rfl, ?_⟩, by decide, by decide⟩
  unfold startOf nsPerDay
  omega

/-- Claim C6 witness: the invariant applied to the surviving row with end
date `2024.03.01`. -/
theorem c6_start_derivation_witness :
    startOf (mkNs 2024 3 1 0 0 0) = mkNs 2024 3 1 0 0 0 - 14 * nsPerDay
    ∧ startOf (mkNs 2024 3 1 0 0 0) < mkNs 2024 3 1 0 0 0 :=
  c6_start_derivation.1 (some "2024.03.01") (mkNs 2024 3 1 0 0 0) (by decide)

/-- Claim C7, counterexample to the claim as stated: the end date
2024-03-15 00:00 falls on the same civil day as "now" 2024-03-15 12:00
— the end date *is today* — yet the annotation is `D+1`, not `D-0`:
line 150 compares full timestamps, not calendar days. -/
theorem c7_counterexample :
    mkNs 2024 3 15 0 0 0 / nsPerDay = mkNs 2024 3 15 12 0 0 / nsPerDay
    ∧ d_day_text (mkNs 2024 3 15 0 0 0) (mkNs 2024 3 15 12 0 0) = "D+1" :=
  ⟨by decide, by decide⟩

/-- Claim C7 (amended): the annotation is `D-n` exactly when the end
timestamp is at or after "now" (with `n = ⌊(end - now) / 1 day⌋ ≥ 0`),
and `D+n` exactly when the end timestamp is strictly before "now" (with
`n = -⌊(end - now) / 1 day⌋ > 0`); the comparison is between full
timestamps, so a midnight deadline of the current day with a later
"now" is annotated `D+1`. -/
theorem c7_dday_sign (e n : Int) :
    (n ≤ e → d_day_text e n = "D-" ++ toString (d_day e n) ∧ 0 ≤ d_day e n)
    ∧ (e < n → d_day_text e n = "D+" ++ toString (-(d_day e n)) ∧ d_day e n < 0) := by
  constructor
  · intro h
    have hd : 0 ≤ d_day e n := by unfold d_day nsPerDay; omega
    exact ⟨by unfold d_day_text; rw [if_pos hd], hd⟩
  · intro h
    have hd : d_day e n < 0 := by unfold d_day nsPerDay; omega
    have hd' : ¬ 0 ≤ d_day e n := by omega
    exact ⟨by unfold d_day_text; rw [if_neg hd'], hd⟩

/-- Claim C7 witness: the amended sign rule applied at a future deadline
four and a half days away. -/
theorem c7_dday_sign_witness :
    d_day_text (mkNs 2024 3 20 0 0 0) (mkNs 2024 3 15 12 0 0)
      = "D-" ++ toString (d_day (mkNs 2024 3 20 0 0 0) (mkNs 2024 3 15 12 0 0))
    ∧ 0 ≤ d_day (mkNs 2024 3 20 0 0 0) (mkNs 2024 3 15 12 0 0) :=
  (c7_dday_sign (mkNs 2024 3 20 0 0 0) (mkNs 2024 3 15 12 0 0)).1 (by decide)

/-- Claim C8, counterexample to the claim as stated: `1500-01-01` is a
valid canonical date, but the format battery's `OutOfBoundsDatetime` is
caught as a `ValueError`, every other format fails, and the result is
`NaT` — not the identity. -/
theorem c8_counterexample : parse_date (some "1500-01-01") = .ok none := by decide

/-- Claim C8 (amended to years 1678-2261, within the pandas timestamp
range): resolving a canonical `YYYY-MM-DD` string returns exactly that
date — resolution is the identity on already-normalized dates. -/
theorem c8_idempotent (y m d : Nat) (hy1 : 1678 ≤ y) (hy2 : y ≤ 2261)
    (hv : validDate y m d) :
    parse_date (some (String.mk (isoStr y m d))) = .ok (some (mkNs y m d 0 0 0)) := by
  show parseStr (isoStr y m d) = _
  exact parse_iso y m d hy1 hy2 hv

/-- Claim C8 witness: idempotence at 2024-03-15. -/
theorem c8_idempotent_witness :
    parse_date (some (String.mk (isoStr 2024 3 15))) = .ok (some (mkNs 2024 3 15 0 0 0)) :=
  c8_idempotent 2024 3 15 (by norm_num) (by norm_num) (by decide)

/-- Claim C9: `find_column` returns the first column, in the sequence's
existing order, whose name contains some keyword case-insensitively (no
ranking among matches), and returns `none` exactly when no column
matches. -/
theorem c9_find_column (cols keywords : List String) :
    (find_column cols keywords = none ↔ ∀ c ∈ cols, colMatches keywords c = false)
    ∧ (∀ c, find_column cols keywords = some c →
        colMatches keywords c = true
        ∧ ∃ pre post, cols = pre ++ c :: post ∧ ∀ x ∈ pre, colMatches keywords x = false) := by
  induction cols with
  | nil =>
    refine ⟨by simp [find_column], ?_⟩
    intro c h
    simp [find_column] at h
  | cons a t ih =>
    by_cases ha : colMatches keywords a = true
    · refine ⟨?_, ?_⟩
      · rw [find_column, List.find?_cons_of_pos _ ha]
        constructor
        · intro h; cases h
        · intro h
          have := h a (by simp)
          rw [ha] at this
          cases this
      · intro c hc
        rw [find_column, List.find?_cons_of_pos _ ha] at hc
        have hac : a = c := Option.some.inj hc
        subst hac
        exact ⟨ha, [], t, rfl, by simp⟩
    · have ha' : colMatches keywords a = false := by
        cases hb : colMatches keywords a
        · rfl
        · exact absurd hb ha
      refine ⟨?_, ?_⟩
      · rw [find_column, List.find?_cons_of_neg _ (by simp [ha'])]
        constructor
        · intro h c hc
          rcases List.mem_cons.mp hc with rfl|hc'
          · exact ha'
          · exact ih.1.mp h c hc'
        · intro h
          exact ih.1.mpr (fun c hc => h c (by simp [hc]))
      · intro c hc
        rw [find_column, List.find?_cons_of_neg _ (by simp [ha'])] at hc
        obtain ⟨hm, pre, post, heq, hpre⟩ := ih.2 c hc
        refine ⟨hm, a :: pre, post, by rw [List.cons_append, heq], ?_⟩
        intro x hx
        rcases List.mem_cons.mp hx with rfl|hx'
        · exact ha'
        · exact hpre x hx'

/-- Claim C9 witness: the specification's examples — `사업명` is found
first, and a keyword matching no column yields not-found. -/
theorem c9_find_column_witness :
    (colMatches ["사업명"] "사업명" = true
      ∧ ∃ pre post, ["사업명", "담당자"] = pre ++ "사업명" :: post
          ∧ ∀ x ∈ pre, colMatches ["사업명"] x = false)
    ∧ find_column ["사업명", "담당자"] ["nonexistent"] = none :=
  ⟨(c9_find_column ["사업명", "담당자"] ["사업명"]).2 "사업명" (by decide), by decide⟩

/-- Claim C10: when rule 5 fails, rules 6-9 are applied to the string
with the meridiem marker removed and whitespace re-stripped (line 61
reassigns `date_str`), not to the original input; in particular
`"2024.03.15 오후"` silently discards the afternoon marker and resolves
to 2024-03-15 00:00 through the format battery. -/
theorem c10_stripped_fallthrough (l : List Char) (pm : Bool) (e : PErr)
    (hsent : ¬ sentinelHit (stripList l)) (h3 : rule3 (stripList l) = none)
    (h4 : rule4 (stripList l) = none) (hm : findMarker (stripList l) = some pm)
    (hfail : strptimeTs fmtRule5
      (stripList (removeMarker (if pm then '후' else '전') (stripList l))) = .error e) :
    parse_date (some (String.mk l))
      = afterRules (stripList (removeMarker (if pm then '후' else '전') (stripList l)))
    ∧ parse_date (some "2024.03.15 오후") = .ok (some (mkNs 2024 3 15 0 0 0))
    ∧ stripList (removeMarker '후' (stripList "2024.03.15 오후".data)) = "2024.03.15".data
    ∧ afterRules "2024.03.15".data = .ok (some (mkNs 2024 3 15 0 0 0)) := by
  refine ⟨?_, by decide, by decide, by decide⟩
  show parseStr l = _
  rw [parseStr_no_early' l hsent h3 h4]
  exact rule5Stage_marker_err _ _ _ hm (tryRule5_err _ _ _ hfail)

/-- Claim C10 witness: `"2023.07 오후"` falls through with the marker
stripped and resolves to 2023-07-01 by the year-month rule. -/
theorem c10_stripped_fallthrough_witness :
    parse_date (some "2023.07 오후")
      = afterRules (stripList (removeMarker (if true then '후' else '전')
          (stripList "2023.07 오후".data)))
    ∧ parse_date (some "2023.07 오후") = .ok (some (mkNs 2023 7 1 0 0 0)) :=
  ⟨(c10_stripped_fallthrough "2023.07 오후".data true .nomatch (by decide) (by decide)
      (by decide) (by decide) (by decide)).1,
    by decide⟩

end ProjectCal
